import Mathlib

/-!
# Kraken tracker storage and docker tag client

A shallow embedding of

* `tracker/storage/mysqlstorage.go`: the MySQL implementation of the tracker's
  storage interface (peer, torrent and manifest tables), and
* `lib/backend/hdfsbackend/docker_tag_client.go`: the client that uploads and
  downloads tag blobs by name.

The SQL statements of the source are kept as statements (table, column names,
positional arguments) and run by a small relational engine, so that the column
a statement names, and the order in which arguments are bound and columns are
scanned, are part of the model.
-/

namespace Kraken

/-! ## The relational engine (the `database/sql` driver and the MySQL server) -/

/-- A value bound to a `?` placeholder or stored in a column. -/
inductive Value where
  | str (s : String)
  | int (i : Int)
  deriving DecidableEq, Repr

/-- Errors of the driver and of the server. -/
inductive SQLError where
  | unavailable (msg : String)
  | unknownTable (table : String)
  | unknownColumn (col : String)
  | duplicateKey (table : String)
  | noDefault (table : String)
  | badValue (col : String)
  | argCount
  | notAQuery
  | scan
  deriving DecidableEq, Repr

/-- The statements used by the store: `select cols from table where whereCol = ?`,
`insert into table(cols) values(?, ...)` with an optional
`on duplicate key update c = ?, ...`, and `delete from table where whereCol = ?`. -/
inductive Stmt where
  | select (cols : List String) (table : String) (whereCol : String)
  | insert (table : String) (cols : List String) (onDuplicate : Option (List String))
  | delete (table : String) (whereCol : String)
  deriving DecidableEq, Repr

/-- A table declaration over rows of type `ρ`: its name, its columns, the columns of
its unique key, and how a column name reads and writes a row. `get` and `set` answer
`none` for a name that is not a column of the table. -/
structure Schema (ρ : Type) where
  name : String
  cols : List String
  key : List String
  get : String → Option (ρ → Value)
  set : String → Option (Value → ρ → Option ρ)
  blank : ρ

variable {ρ : Type}

/-- Resolve a list of column names to their readers. -/
def Schema.readers (S : Schema ρ) : List String → Except SQLError (List (ρ → Value))
  | [] => .ok []
  | c :: cs =>
    match S.get c with
    | none => .error (.unknownColumn c)
    | some f =>
      match S.readers cs with
      | .error e => .error e
      | .ok fs => .ok (f :: fs)

/-- Write the values `vs` to the columns `cs` of a row, in order. -/
def Schema.assign (S : Schema ρ) : List String → List Value → ρ → Except SQLError ρ
  | [], [], r => .ok r
  | c :: cs, v :: vs, r =>
    match S.set c with
    | none => .error (.unknownColumn c)
    | some f =>
      match f v r with
      | none => .error (.badValue c)
      | some r1 => S.assign cs vs r1
  | _, _, _ => .error .argCount

/-- Two rows agree on every column of the unique key. -/
def Schema.sameKey (S : Schema ρ) (a b : ρ) : Bool :=
  S.key.all (fun c =>
    match S.get c with
    | some f => f a == f b
    | none => false)

/-- The statement `select cols from S where whereCol = arg`. -/
def Schema.selectWhere (S : Schema ρ) (cols : List String) (whereCol : String) (arg : Value)
    (rows : List ρ) : Except SQLError (List (List Value)) :=
  match S.get whereCol with
  | none => .error (.unknownColumn whereCol)
  | some w =>
    match S.readers cols with
    | .error e => .error e
    | .ok fs => .ok ((rows.filter (fun r => w r == arg)).map (fun r => fs.map (fun f => f r)))

/-- The statement `delete from S where whereCol = arg`. -/
def Schema.deleteWhere (S : Schema ρ) (whereCol : String) (arg : Value) (rows : List ρ) :
    Except SQLError (List ρ) :=
  match S.get whereCol with
  | none => .error (.unknownColumn whereCol)
  | some w => .ok (rows.filter (fun r => !(w r == arg)))

/-- Apply the `on duplicate key update` assignments to the rows holding the key of `r`. -/
def Schema.updateDuplicates (S : Schema ρ) (r : ρ) (upd : List String) (updVals : List Value) :
    List ρ → Except SQLError (List ρ)
  | [] => .ok []
  | old :: rest =>
    match S.updateDuplicates r upd updVals rest with
    | .error e => .error e
    | .ok rest1 =>
      if S.sameKey r old then
        match S.assign upd updVals old with
        | .error e => .error e
        | .ok new => .ok (new :: rest1)
      else .ok (old :: rest1)

/-- The statement `insert into S(cols) values(...)`, with `on duplicate key update`
when `onDuplicate` is given. The first `cols.length` arguments are the inserted values,
the remaining ones the values of the update list. Every column of the table must be
given a value; a row holding the same unique key makes a plain insert fail and an
upsert update that row in place. -/
def Schema.insertInto (S : Schema ρ) (cols : List String) (onDuplicate : Option (List String))
    (args : List Value) (rows : List ρ) : Except SQLError (List ρ) :=
  if S.cols.all (fun c => cols.contains c) then
    match S.assign cols (args.take cols.length) S.blank with
    | .error e => .error e
    | .ok r =>
      match onDuplicate with
      | none =>
        if args.length = cols.length then
          if rows.any (fun old => S.sameKey r old) then .error (.duplicateKey S.name)
          else .ok (rows ++ [r])
        else .error .argCount
      | some upd =>
        match S.assign upd (args.drop cols.length) S.blank with
        | .error e => .error e
        | .ok _ =>
          if rows.any (fun old => S.sameKey r old) then
            S.updateDuplicates r upd (args.drop cols.length) rows
          else .ok (rows ++ [r])
  else .error (.noDefault S.name)

/-! ## The tables -/

/-- A row of table `peer`; the fields are the columns named by the peer statements. -/
structure PeerRow where
  infoHash : String
  peerId : String
  ip : String
  port : Int
  bytes_uploaded : Int
  bytes_downloaded : Int
  bytes_left : Int
  event : String
  flags : Int
  deriving DecidableEq, Repr

/-- A row of table `torrent`. -/
structure TorrentRow where
  torrentName : String
  infoHash : String
  author : String
  numPieces : Int
  pieceLength : Int
  refcount : Int
  flags : Int
  deriving DecidableEq, Repr

/-- A row of table `manifest`. -/
structure ManifestRow where
  tagName : String
  manifest : String
  flags : Int
  deriving DecidableEq, Repr

/-- Store a string value. -/
def setStr (put : String → ρ → ρ) : Value → ρ → Option ρ
  | .str s, r => some (put s r)
  | .int _, _ => none

/-- Store an integer value. -/
def setInt (put : Int → ρ → ρ) : Value → ρ → Option ρ
  | .int i, r => some (put i r)
  | .str _, _ => none

/-- Modelled from the spec: the declaration of table `peer` is not in the source. Its
columns are the ones the select and upsert statements of the source name (the fields of
PeerInfo in the data model), and its unique key is (infoHash, peerId): "at most one row
per (infoHash, peerID)". -/
def peerSchema : Schema PeerRow where
  name := "peer"
  cols := ["infoHash", "peerId", "ip", "port", "bytes_uploaded", "bytes_downloaded",
    "bytes_left", "event", "flags"]
  key := ["infoHash", "peerId"]
  get := fun c =>
    if c = "infoHash" then some (fun r => .str r.infoHash)
    else if c = "peerId" then some (fun r => .str r.peerId)
    else if c = "ip" then some (fun r => .str r.ip)
    else if c = "port" then some (fun r => .int r.port)
    else if c = "bytes_uploaded" then some (fun r => .int r.bytes_uploaded)
    else if c = "bytes_downloaded" then some (fun r => .int r.bytes_downloaded)
    else if c = "bytes_left" then some (fun r => .int r.bytes_left)
    else if c = "event" then some (fun r => .str r.event)
    else if c = "flags" then some (fun r => .int r.flags)
    else none
  set := fun c =>
    if c = "infoHash" then some (setStr (fun v r => { r with infoHash := v }))
    else if c = "peerId" then some (setStr (fun v r => { r with peerId := v }))
    else if c = "ip" then some (setStr (fun v r => { r with ip := v }))
    else if c = "port" then some (setInt (fun v r => { r with port := v }))
    else if c = "bytes_uploaded" then some (setInt (fun v r => { r with bytes_uploaded := v }))
    else if c = "bytes_downloaded" then
      some (setInt (fun v r => { r with bytes_downloaded := v }))
    else if c = "bytes_left" then some (setInt (fun v r => { r with bytes_left := v }))
    else if c = "event" then some (setStr (fun v r => { r with event := v }))
    else if c = "flags" then some (setInt (fun v r => { r with flags := v }))
    else none
  blank := ⟨"", "", "", 0, 0, 0, 0, "", 0⟩

/-- Modelled from the spec: the declaration of table `torrent` is not in the source. Its
columns are the ones the torrent statements name, and its unique key is torrentName:
"torrentName is globally unique". -/
def torrentSchema : Schema TorrentRow where
  name := "torrent"
  cols := ["torrentName", "infoHash", "author", "numPieces", "pieceLength", "refcount",
    "flags"]
  key := ["torrentName"]
  get := fun c =>
    if c = "torrentName" then some (fun r => .str r.torrentName)
    else if c = "infoHash" then some (fun r => .str r.infoHash)
    else if c = "author" then some (fun r => .str r.author)
    else if c = "numPieces" then some (fun r => .int r.numPieces)
    else if c = "pieceLength" then some (fun r => .int r.pieceLength)
    else if c = "refcount" then some (fun r => .int r.refcount)
    else if c = "flags" then some (fun r => .int r.flags)
    else none
  set := fun c =>
    if c = "torrentName" then some (setStr (fun v r => { r with torrentName := v }))
    else if c = "infoHash" then some (setStr (fun v r => { r with infoHash := v }))
    else if c = "author" then some (setStr (fun v r => { r with author := v }))
    else if c = "numPieces" then some (setInt (fun v r => { r with numPieces := v }))
    else if c = "pieceLength" then some (setInt (fun v r => { r with pieceLength := v }))
    else if c = "refcount" then some (setInt (fun v r => { r with refcount := v }))
    else if c = "flags" then some (setInt (fun v r => { r with flags := v }))
    else none
  blank := ⟨"", "", "", 0, 0, 0, 0⟩

/-- Modelled from the spec: the declaration of table `manifest` is not in the source. Its
columns are the ones the manifest statements name, and its unique key is tagName: "at
most one row per tagName". -/
def manifestSchema : Schema ManifestRow where
  name := "manifest"
  cols := ["tagName", "manifest", "flags"]
  key := ["tagName"]
  get := fun c =>
    if c = "tagName" then some (fun r => .str r.tagName)
    else if c = "manifest" then some (fun r => .str r.manifest)
    else if c = "flags" then some (fun r => .int r.flags)
    else none
  set := fun c =>
    if c = "tagName" then some (setStr (fun v r => { r with tagName := v }))
    else if c = "manifest" then some (setStr (fun v r => { r with manifest := v }))
    else if c = "flags" then some (setInt (fun v r => { r with flags := v }))
    else none
  blank := ⟨"", "", 0⟩

/-- The database behind `ds.db`: the contents of the three tables. -/
structure DB where
  peer : List PeerRow
  torrent : List TorrentRow
  manifest : List ManifestRow
  deriving DecidableEq, Repr

/-- What the connection does during one call: `fail` is an error that keeps the
statement from running (the store cannot be reached, a timeout), `cut` an error that
ends the iteration over a result set after that many rows. -/
structure Link where
  fail : Option SQLError
  cut : Option (Nat × SQLError)
  deriving DecidableEq, Repr

/-- A connection on which nothing goes wrong. -/
def Link.healthy : Link := ⟨none, none⟩

/-- Run a data-changing statement on the tables. -/
def DB.run (db : DB) (stmt : Stmt) (args : List Value) : Except SQLError DB :=
  match stmt with
  | .select _ _ _ => .ok db
  | .insert table cols onDuplicate =>
    if table = "peer" then
      match peerSchema.insertInto cols onDuplicate args db.peer with
      | .error e => .error e
      | .ok rows => .ok { db with peer := rows }
    else if table = "torrent" then
      match torrentSchema.insertInto cols onDuplicate args db.torrent with
      | .error e => .error e
      | .ok rows => .ok { db with torrent := rows }
    else if table = "manifest" then
      match manifestSchema.insertInto cols onDuplicate args db.manifest with
      | .error e => .error e
      | .ok rows => .ok { db with manifest := rows }
    else .error (.unknownTable table)
  | .delete table whereCol =>
    match args with
    | [arg] =>
      if table = "peer" then
        match peerSchema.deleteWhere whereCol arg db.peer with
        | .error e => .error e
        | .ok rows => .ok { db with peer := rows }
      else if table = "torrent" then
        match torrentSchema.deleteWhere whereCol arg db.torrent with
        | .error e => .error e
        | .ok rows => .ok { db with torrent := rows }
      else if table = "manifest" then
        match manifestSchema.deleteWhere whereCol arg db.manifest with
        | .error e => .error e
        | .ok rows => .ok { db with manifest := rows }
      else .error (.unknownTable table)
    | _ => .error .argCount

/-- The call `db.Exec(stmt, args...)`: the database after the call and the error
returned. A statement that fails changes nothing. -/
def DB.Exec (db : DB) (link : Link) (stmt : Stmt) (args : List Value) : DB × Option SQLError :=
  match link.fail with
  | some e => (db, some e)
  | none =>
    match db.run stmt args with
    | .error e => (db, some e)
    | .ok db1 => (db1, none)

/-- The result set of a query: the rows `rows.Next()` delivers before it answers false,
and what `rows.Err()` answers after that. -/
structure Rows where
  items : List (List Value)
  err : Option SQLError
  deriving DecidableEq, Repr

/-- Evaluate a select statement on the tables. -/
def DB.eval (db : DB) (stmt : Stmt) (args : List Value) : Except SQLError (List (List Value)) :=
  match stmt, args with
  | .select cols table whereCol, [arg] =>
    if table = "peer" then peerSchema.selectWhere cols whereCol arg db.peer
    else if table = "torrent" then torrentSchema.selectWhere cols whereCol arg db.torrent
    else if table = "manifest" then manifestSchema.selectWhere cols whereCol arg db.manifest
    else .error (.unknownTable table)
  | .select _ _ _, _ => .error .argCount
  | _, _ => .error .notAQuery

/-- The call `db.Query(stmt, args...)`. -/
def DB.Query (db : DB) (link : Link) (stmt : Stmt) (args : List Value) : Except SQLError Rows :=
  match link.fail with
  | some e => .error e
  | none =>
    match db.eval stmt args with
    | .error e => .error e
    | .ok rs =>
      match link.cut with
      | none => .ok ⟨rs, none⟩
      | some (n, e) => .ok ⟨rs.take n, some e⟩

/-! ## `tracker/storage/mysqlstorage.go` -/

/-- Modelled from the spec: the declaration of type PeerInfo is not in the source; the
fields are the ones `Read` scans and `Update` binds. -/
structure PeerInfo where
  InfoHash : String
  PeerID : String
  IP : String
  Port : Int
  BytesUploaded : Int
  BytesDownloaded : Int
  BytesLeft : Int
  Event : String
  Flags : Int
  deriving DecidableEq, Repr

/-- Modelled from the spec: the declaration of type TorrentInfo is not in the source; the
fields are the ones `ReadTorrent` scans and `CreateTorrent` binds. -/
structure TorrentInfo where
  TorrentName : String
  InfoHash : String
  Author : String
  NumPieces : Int
  PieceLength : Int
  RefCount : Int
  Flags : Int
  deriving DecidableEq, Repr

/-- Modelled from the spec: the declaration of type Manifest is not in the source; the
fields are the ones `ReadManifest` scans and `UpdateManifest` binds. -/
structure Manifest where
  TagName : String
  Manifest : String
  Flags : Int
  deriving DecidableEq, Repr

def selectPeerStatememtStr : Stmt :=
  .select ["infoHash", "peerId", "ip", "port", "bytes_uploaded", "bytes_downloaded",
    "bytes_left", "event", "flags"] "peer" "infoHash"

def upsertPeerStatememtStr : Stmt :=
  .insert "peer"
    ["infoHash", "peerId", "ip", "port", "bytes_uploaded", "bytes_downloaded", "bytes_left",
      "event", "flags"]
    (some ["ip", "port", "bytes_uploaded", "bytes_downloaded", "bytes_left", "event", "flags"])

def deletePeerByTorrentStr : Stmt := .delete "peer" "torrentName"

def deletePeerByHashInfoStr : Stmt := .delete "peer" "hashInfo"

def deletePeerByPeerIDStr : Stmt := .delete "peer" "peerId"

def selectTorrentStatememtStr : Stmt :=
  .select ["torrentName", "infoHash", "author", "numPieces", "pieceLength", "refcount",
    "flags"] "torrent" "torrentName"

def insertTorrentStatememtStr : Stmt :=
  .insert "torrent"
    ["torrentName", "infoHash", "author", "numPieces", "pieceLength", "refcount", "flags"] none

def deleteTorrentStatememtStr : Stmt := .delete "torrent" "torrentName"

def selectManifestStatememtStr : Stmt :=
  .select ["tagName", "manifest", "flags"] "manifest" "tagName"

def upsertManifestStatememtStr : Stmt :=
  .insert "manifest" ["tagName", "manifest", "flags"] (some ["manifest", "flags"])

/-- The store: `ds.db` is the handle of the database. -/
structure MySQLDataStore where
  db : DB
  deriving DecidableEq, Repr

/-- The call `rows.Scan(&p.InfoHash, &p.PeerID, &p.IP, &p.Port, &p.BytesUploaded,
&p.BytesDownloaded, &p.BytesLeft, &p.Event, &p.Flags)`. -/
def scanPeerInfo : List Value → Except SQLError PeerInfo
  | [.str infoHash, .str peerID, .str ip, .int port, .int up, .int down, .int left,
      .str event, .int flags] =>
    .ok ⟨infoHash, peerID, ip, port, up, down, left, event, flags⟩
  | _ => .error .scan

/-- The call `rows.Scan(&t.TorrentName, &t.InfoHash, &t.Author, &t.NumPieces,
&t.PieceLength, &t.RefCount, &t.Flags)`. -/
def scanTorrentInfo : List Value → Except SQLError TorrentInfo
  | [.str name, .str infoHash, .str author, .int numPieces, .int pieceLength, .int refCount,
      .int flags] =>
    .ok ⟨name, infoHash, author, numPieces, pieceLength, refCount, flags⟩
  | _ => .error .scan

/-- The call `rows.Scan(&m.TagName, &m.Manifest, &m.Flags)`. -/
def scanManifest : List Value → Except SQLError Manifest
  | [.str tagName, .str manifest, .int flags] => .ok ⟨tagName, manifest, flags⟩
  | _ => .error .scan

/-- The loop `for rows.Next()` of `Read`: the peers appended so far, and the error of a
failed scan. -/
def readLoop : List (List Value) → List PeerInfo → List PeerInfo × Option SQLError
  | [], peers => (peers, none)
  | r :: rs, peers =>
    match scanPeerInfo r with
    | .error e => (peers, some e)
    | .ok p => readLoop rs (peers ++ [p])

namespace MySQLDataStore

/-- Read reads PeerInfo identified by infoHash key from a storage. -/
def Read (ds : MySQLDataStore) (link : Link) (infoHash : String) :
    List PeerInfo × Option SQLError :=
  match ds.db.Query link selectPeerStatememtStr [.str infoHash] with
  | .error e => ([], some e)
  | .ok rows =>
    match readLoop rows.items [] with
    | (peers, some e) => (peers, some e)
    | (peers, none) =>
      match rows.err with
      | some e => (peers, some e)
      | none => (peers, none)

/-- Update updates PeerInfo in a storage. -/
def Update (ds : MySQLDataStore) (link : Link) (peerInfo : PeerInfo) :
    MySQLDataStore × Option SQLError :=
  match ds.db.Exec link upsertPeerStatememtStr
      [.str peerInfo.InfoHash, .str peerInfo.PeerID, .str peerInfo.IP, .int peerInfo.Port,
        .int peerInfo.BytesUploaded, .int peerInfo.BytesDownloaded, .int peerInfo.BytesLeft,
        .str peerInfo.Event, .int peerInfo.Flags,
        .str peerInfo.IP, .int peerInfo.Port, .int peerInfo.BytesUploaded,
        .int peerInfo.BytesDownloaded, .int peerInfo.BytesLeft, .str peerInfo.Event,
        .int peerInfo.Flags] with
  | (db, some err) => (⟨db⟩, some err)
  | (db, none) => (⟨db⟩, none)

/-- DeleteAllHashes deletes all peers for a particular hash. -/
def DeleteAllHashes (ds : MySQLDataStore) (link : Link) (infoHash : String) :
    MySQLDataStore × Option SQLError :=
  match ds.db.Exec link deletePeerByHashInfoStr [.str infoHash] with
  | (db, some err) => (⟨db⟩, some err)
  | (db, none) => (⟨db⟩, none)

/-- DeleteAllPeers deletes all peers with a particular peerID. -/
def DeleteAllPeers (ds : MySQLDataStore) (link : Link) (peerID : String) :
    MySQLDataStore × Option SQLError :=
  match ds.db.Exec link deletePeerByHashInfoStr [.str peerID] with
  | (db, some err) => (⟨db⟩, some err)
  | (db, none) => (⟨db⟩, none)

/-- ReadTorrent reads torrent's metadata identified by a torrent name. -/
def ReadTorrent (ds : MySQLDataStore) (link : Link) (torrentName : String) :
    Option TorrentInfo × Option SQLError :=
  match ds.db.Query link selectTorrentStatememtStr [.str torrentName] with
  | .error e => (none, some e)
  | .ok rows =>
    match rows.items with
    | r :: _ =>
      match scanTorrentInfo r with
      | .error e => (none, some e)
      | .ok t => (some t, none)
    | [] =>
      match rows.err with
      | some e => (none, some e)
      | none => (none, none)

/-- CreateTorrent creates a torrent in storage. -/
def CreateTorrent (ds : MySQLDataStore) (link : Link) (torrentInfo : TorrentInfo) :
    MySQLDataStore × Option SQLError :=
  match ds.db.Exec link insertTorrentStatememtStr
      [.str torrentInfo.TorrentName, .str torrentInfo.InfoHash, .str torrentInfo.Author,
        .int torrentInfo.NumPieces, .int torrentInfo.PieceLength, .int torrentInfo.RefCount,
        .int torrentInfo.Flags] with
  | (db, some err) => (⟨db⟩, some err)
  | (db, none) => (⟨db⟩, none)

/-- DeleteTorrent deletes torrent from storage. -/
def DeleteTorrent (ds : MySQLDataStore) (link : Link) (torrentName : String) :
    MySQLDataStore × Option SQLError :=
  match ds.db.Exec link deleteTorrentStatememtStr [.str torrentName] with
  | (db, some err) => (⟨db⟩, some err)
  | (db, none) => (⟨db⟩, none)

/-- ReadManifest reads manifest from storage. -/
def ReadManifest (ds : MySQLDataStore) (link : Link) (tagName : String) :
    Option Manifest × Option SQLError :=
  match ds.db.Query link selectManifestStatememtStr [.str tagName] with
  | .error e => (none, some e)
  | .ok rows =>
    match rows.items with
    | r :: _ =>
      match scanManifest r with
      | .error e => (none, some e)
      | .ok m => (some m, none)
    | [] =>
      match rows.err with
      | some e => (none, some e)
      | none => (none, none)

/-- UpdateManifest updates content manifest in a storage. -/
def UpdateManifest (ds : MySQLDataStore) (link : Link) (manifest : Manifest) :
    MySQLDataStore × Option SQLError :=
  match ds.db.Exec link upsertManifestStatememtStr
      [.str manifest.TagName, .str manifest.Manifest, .int manifest.Flags,
        .str manifest.Manifest, .int manifest.Flags] with
  | (db, some err) => (⟨db⟩, some err)
  | (db, none) => (⟨db⟩, none)

end MySQLDataStore

/-! ## Auxiliary definitions for the store -/

/-- At most one row per unique key of the table. -/
def Schema.KeysUnique (S : Schema ρ) (rows : List ρ) : Prop :=
  rows.Pairwise (fun a b => S.sameKey a b = false)

/-- The tables of a database respect their unique keys. -/
def DB.Valid (db : DB) : Prop :=
  peerSchema.KeysUnique db.peer ∧ torrentSchema.KeysUnique db.torrent ∧
    manifestSchema.KeysUnique db.manifest

/-- The values of a peer row in the order of the select list. -/
def PeerRow.values (r : PeerRow) : List Value :=
  [.str r.infoHash, .str r.peerId, .str r.ip, .int r.port, .int r.bytes_uploaded,
    .int r.bytes_downloaded, .int r.bytes_left, .str r.event, .int r.flags]

/-- The PeerInfo scanned from a peer row. -/
def PeerRow.toPeerInfo (r : PeerRow) : PeerInfo :=
  ⟨r.infoHash, r.peerId, r.ip, r.port, r.bytes_uploaded, r.bytes_downloaded, r.bytes_left,
    r.event, r.flags⟩

/-- The peer row inserted for a PeerInfo. -/
def PeerInfo.toRow (p : PeerInfo) : PeerRow :=
  ⟨p.InfoHash, p.PeerID, p.IP, p.Port, p.BytesUploaded, p.BytesDownloaded, p.BytesLeft,
    p.Event, p.Flags⟩

/-- What the upsert of `p` makes of the rows of table peer. -/
def upsertPeerRows (p : PeerInfo) (rows : List PeerRow) : List PeerRow :=
  if rows.any (fun old => p.InfoHash = old.infoHash ∧ p.PeerID = old.peerId) then
    rows.map (fun old =>
      if p.InfoHash = old.infoHash ∧ p.PeerID = old.peerId then
        { old with ip := p.IP, port := p.Port, bytes_uploaded := p.BytesUploaded,
                   bytes_downloaded := p.BytesDownloaded, bytes_left := p.BytesLeft,
                   event := p.Event, flags := p.Flags }
      else old)
  else rows ++ [p.toRow]

/-- The values of a torrent row in the order of the select list. -/
def TorrentRow.values (r : TorrentRow) : List Value :=
  [.str r.torrentName, .str r.infoHash, .str r.author, .int r.numPieces, .int r.pieceLength,
    .int r.refcount, .int r.flags]

/-- The TorrentInfo scanned from a torrent row. -/
def TorrentRow.toTorrentInfo (r : TorrentRow) : TorrentInfo :=
  ⟨r.torrentName, r.infoHash, r.author, r.numPieces, r.pieceLength, r.refcount, r.flags⟩

/-- The torrent row inserted for a TorrentInfo. -/
def TorrentInfo.toRow (t : TorrentInfo) : TorrentRow :=
  ⟨t.TorrentName, t.InfoHash, t.Author, t.NumPieces, t.PieceLength, t.RefCount, t.Flags⟩

/-- The values of a manifest row in the order of the select list. -/
def ManifestRow.values (r : ManifestRow) : List Value :=
  [.str r.tagName, .str r.manifest, .int r.flags]

/-- The Manifest scanned from a manifest row. -/
def ManifestRow.toManifest (r : ManifestRow) : Manifest :=
  ⟨r.tagName, r.manifest, r.flags⟩

/-- The manifest row inserted for a Manifest. -/
def Manifest.toRow (m : Kraken.Manifest) : ManifestRow :=
  ⟨m.TagName, m.Manifest, m.Flags⟩

/-- What the upsert of `m` makes of the rows of table manifest. -/
def upsertManifestRows (m : Manifest) (rows : List ManifestRow) : List ManifestRow :=
  if rows.any (fun old => m.TagName = old.tagName) then
    rows.map (fun old =>
      if m.TagName = old.tagName then { old with manifest := m.Manifest, flags := m.Flags }
      else old)
  else rows ++ [m.toRow]

/-! ## `lib/backend/nameparse` and `lib/backend/hdfsbackend/docker_tag_client.go` -/

/-- A Go `error` value. -/
structure Error where
  msg : String
  deriving DecidableEq, Repr

/-- The bytes of a stream: for an `io.Reader` the bytes not read yet, for an `io.Writer`
the bytes written so far. -/
abbrev Bytes := List UInt8

namespace nameparse

/-- The segments of a path: the pieces between its slashes. -/
def segments : List Char → List (List Char)
  | [] => [[]]
  | c :: cs =>
    if c = '/' then [] :: segments cs
    else
      match segments cs with
      | [] => [[c]]
      | s :: ss => (c :: s) :: ss

/-- Split an identifier at its first colon. -/
def splitRepoTag : List Char → Option (List Char × List Char)
  | [] => none
  | c :: cs =>
    if c = ':' then some ([], cs)
    else
      match splitRepoTag cs with
      | none => none
      | some (repo, tag) => some (c :: repo, tag)

/-- Modelled from the spec: function RepoTagPath of package nameparse is not in the source.
"Given a content identifier string expected to be of the form `<repository>:<tag>`,
produce a storage path rooted at a configured root directory, or fail if the identifier
is malformed (missing separator, empty repository, empty tag, or disallowed characters)",
and "reject path-traversal attempts (identifiers that would escape the root directory,
e.g. containing `..` segments)". The spec does not list the disallowed characters: they
are the parameter `disallowed`. The path is the root, the repository and the tag joined
by slashes. -/
def RepoTagPath (disallowed : Char → Bool) (root name : String) : Except Error String :=
  match splitRepoTag name.toList with
  | none => .error ⟨"name must be in format repo:tag"⟩
  | some (repo, tag) =>
    if ':' ∈ tag then .error ⟨"name must be in format repo:tag"⟩
    else if repo = [] then .error ⟨"repo must be non-empty"⟩
    else if tag = [] then .error ⟨"tag must be non-empty"⟩
    else if (repo ++ tag).any disallowed then .error ⟨"disallowed character"⟩
    else if ['.', '.'] ∈ segments repo ∨ ['.', '.'] ∈ segments tag then
      .error ⟨"path traversal"⟩
    else .ok (root ++ "/" ++ (String.mk repo ++ "/" ++ String.mk tag))

end nameparse

namespace hdfsbackend

/-- The configuration of the client; only the root directory is used here. -/
structure Config where
  RootDirectory : String
  deriving DecidableEq, Repr

/-- The transfer client, which is not in the source: `upload path src` and
`download path dst` act on the state `σ` of the remote store, consume the reader
`src` or extend the writer `dst`, and return an error or nil. Both are parameters. -/
structure client (σ : Type) where
  upload : String → Bytes → σ → σ × Bytes × Option Error
  download : String → Bytes → σ → σ × Bytes × Option Error

/-- DockerTagClient is an HDFS client for uploading / downloading tags to a docker
registry. -/
structure DockerTagClient (σ : Type) where
  config : Config
  client : client σ

variable {σ : Type}

/-- The method `path`. The function `nameparse.RepoTagPath` it calls is the parameter
`RepoTagPath`. -/
def DockerTagClient.path (RepoTagPath : String → String → Except Error String)
    (c : DockerTagClient σ) (name : String) : Except Error String :=
  RepoTagPath c.config.RootDirectory name

/-- Download downloads the value of name into dst. The result is the remote store and
the writer after the call, and the error returned. -/
def DockerTagClient.Download (RepoTagPath : String → String → Except Error String)
    (c : DockerTagClient σ) (name : String) (dst : Bytes) (remote : σ) :
    σ × Bytes × Option Error :=
  match c.path RepoTagPath name with
  | .error err => (remote, dst, some err)
  | .ok path => c.client.download path dst remote

/-- Upload uploads src as the value of name. The result is the remote store and the
reader after the call, and the error returned. -/
def DockerTagClient.Upload (RepoTagPath : String → String → Except Error String)
    (c : DockerTagClient σ) (name : String) (src : Bytes) (remote : σ) :
    σ × Bytes × Option Error :=
  match c.path RepoTagPath name with
  | .error err => (remote, src, some err)
  | .ok path => c.client.upload path src remote

/-- Modelled from the spec: the transfer client (type `client`, its `upload` and
`download`) is not in the source. The remote store is a map from path to bytes: upload
reads the whole of src and stores it at the path, download writes the bytes stored at
the path to dst and fails when the path holds nothing. -/
def mapClient : client (String → Option Bytes) where
  upload := fun path src remote => (fun q => if q = path then some src else remote q, [], none)
  download := fun path dst remote =>
    match remote path with
    | some b => (remote, dst ++ b, none)
    | none => (remote, dst, some ⟨"file does not exist"⟩)

/-- A transfer client that records its calls, on a remote store that is the list of
the calls made so far. -/
def recordingClient : client (List (String × String)) where
  upload := fun path src remote => (remote ++ [("upload", path)], src, none)
  download := fun path dst remote => (remote ++ [("download", path)], dst, none)

end hdfsbackend

/-! ## Example values -/

/-- A peer of swarm "h1". -/
def examplePeer : PeerInfo := ⟨"h1", "p1", "10.0.0.1", 6881, 10, 20, 30, "started", 0⟩

/-- The same peer after a later announce. -/
def examplePeerLater : PeerInfo := ⟨"h1", "p1", "10.0.0.2", 6882, 11, 21, 29, "completed", 1⟩

/-- A store whose peer table holds the one row of `examplePeer`. -/
def examplePeerStore : MySQLDataStore := ⟨⟨[examplePeer.toRow], [], []⟩⟩

/-- A torrent named "ubuntu". -/
def exampleTorrent : TorrentInfo := ⟨"ubuntu", "h1", "alice", 4, 1024, 1, 0⟩

/-- Another torrent with the same name. -/
def exampleTorrentClash : TorrentInfo := ⟨"ubuntu", "h2", "bob", 8, 2048, 0, 1⟩

/-- A store whose torrent table holds the one row of `exampleTorrent`. -/
def exampleTorrentStore : MySQLDataStore := ⟨⟨[], [exampleTorrent.toRow], []⟩⟩

/-- A manifest for tag "app:latest". -/
def exampleManifest : Manifest := ⟨"app:latest", "first", 0⟩

/-- A later manifest for the same tag. -/
def exampleManifestLater : Manifest := ⟨"app:latest", "second", 1⟩

/-- A store with no rows. -/
def emptyStore : MySQLDataStore := ⟨⟨[], [], []⟩⟩

namespace hdfsbackend

/-- A tag client over the map store. -/
def mapTagClient (config : Config) : DockerTagClient (String → Option Bytes) :=
  ⟨config, mapClient⟩

/-- A tag client rooted at "/tags" whose transfer client records its calls. -/
def exampleTagClient : DockerTagClient (List (String × String)) :=
  ⟨⟨"/tags"⟩, recordingClient⟩

end hdfsbackend

/-! ## The statements of the store, evaluated -/

theorem Value.str_beq (a b : String) :
    (Value.str a == Value.str b) = decide (a = b) := by
  rw [Bool.eq_iff_iff]; simp

theorem peer_sameKey (a b : PeerRow) :
    peerSchema.sameKey a b = decide (a.infoHash = b.infoHash ∧ a.peerId = b.peerId) := by
  simp [Schema.sameKey, peerSchema, Value.str_beq]

theorem torrent_sameKey (a b : TorrentRow) :
    torrentSchema.sameKey a b = decide (a.torrentName = b.torrentName) := by
  simp [Schema.sameKey, torrentSchema, Value.str_beq]

theorem manifest_sameKey (a b : ManifestRow) :
    manifestSchema.sameKey a b = decide (a.tagName = b.tagName) := by
  simp [Schema.sameKey, manifestSchema, Value.str_beq]

theorem eval_selectPeer (db : DB) (h : String) :
    db.eval selectPeerStatememtStr [.str h]
      = .ok ((db.peer.filter (fun r => r.infoHash = h)).map PeerRow.values) := by
  simp [Value.str_beq, DB.eval, selectPeerStatememtStr, Schema.selectWhere, peerSchema, Schema.readers,
    PeerRow.values]

theorem eval_selectTorrent (db : DB) (n : String) :
    db.eval selectTorrentStatememtStr [.str n]
      = .ok ((db.torrent.filter (fun r => r.torrentName = n)).map TorrentRow.values) := by
  simp [Value.str_beq, DB.eval, selectTorrentStatememtStr, Schema.selectWhere, torrentSchema, Schema.readers,
    TorrentRow.values]

theorem eval_selectManifest (db : DB) (n : String) :
    db.eval selectManifestStatememtStr [.str n]
      = .ok ((db.manifest.filter (fun r => r.tagName = n)).map ManifestRow.values) := by
  simp [Value.str_beq, DB.eval, selectManifestStatememtStr, Schema.selectWhere, manifestSchema,
    Schema.readers, ManifestRow.values]

theorem run_deletePeerByHashInfo (db : DB) (a : String) :
    db.run deletePeerByHashInfoStr [.str a] = .error (.unknownColumn "hashInfo") := by
  simp [Value.str_beq, DB.run, deletePeerByHashInfoStr, Schema.deleteWhere, peerSchema]

theorem run_deleteTorrent (db : DB) (n : String) :
    db.run deleteTorrentStatememtStr [.str n]
      = .ok { db with torrent := db.torrent.filter (fun r => r.torrentName ≠ n) } := by
  simp [Value.str_beq, DB.run, deleteTorrentStatememtStr, Schema.deleteWhere, torrentSchema]

theorem peer_updateDuplicates (p : PeerInfo) (r : PeerRow) (rows : List PeerRow) :
    peerSchema.updateDuplicates r
      ["ip", "port", "bytes_uploaded", "bytes_downloaded", "bytes_left", "event", "flags"]
      [.str p.IP, .int p.Port, .int p.BytesUploaded, .int p.BytesDownloaded, .int p.BytesLeft,
        .str p.Event, .int p.Flags] rows
    = .ok (rows.map (fun old =>
      if r.infoHash = old.infoHash ∧ r.peerId = old.peerId then
        { old with ip := p.IP, port := p.Port, bytes_uploaded := p.BytesUploaded,
                   bytes_downloaded := p.BytesDownloaded, bytes_left := p.BytesLeft,
                   event := p.Event, flags := p.Flags }
      else old)) := by
  induction rows with
  | nil => rfl
  | cons old rest ih =>
    simp only [Schema.updateDuplicates, ih, peer_sameKey, List.map_cons]
    by_cases hk : r.infoHash = old.infoHash ∧ r.peerId = old.peerId
    · simp [hk, Schema.assign, peerSchema, setStr, setInt]
    · simp [hk]

theorem peer_upsert (p : PeerInfo) (rows : List PeerRow) :
    peerSchema.insertInto
      ["infoHash", "peerId", "ip", "port", "bytes_uploaded", "bytes_downloaded", "bytes_left",
        "event", "flags"]
      (some ["ip", "port", "bytes_uploaded", "bytes_downloaded", "bytes_left", "event", "flags"])
      [.str p.InfoHash, .str p.PeerID, .str p.IP, .int p.Port,
        .int p.BytesUploaded, .int p.BytesDownloaded, .int p.BytesLeft,
        .str p.Event, .int p.Flags,
        .str p.IP, .int p.Port, .int p.BytesUploaded,
        .int p.BytesDownloaded, .int p.BytesLeft, .str p.Event,
        .int p.Flags] rows
      = .ok (upsertPeerRows p rows) := by
  have hr : peerSchema.assign
      ["infoHash", "peerId", "ip", "port", "bytes_uploaded", "bytes_downloaded", "bytes_left",
        "event", "flags"]
      [.str p.InfoHash, .str p.PeerID, .str p.IP, .int p.Port,
        .int p.BytesUploaded, .int p.BytesDownloaded, .int p.BytesLeft,
        .str p.Event, .int p.Flags] peerSchema.blank = .ok p.toRow := by
    simp [Schema.assign, peerSchema, setStr, setInt, PeerInfo.toRow]
  have hcols : peerSchema.cols.all (fun c =>
      ["infoHash", "peerId", "ip", "port", "bytes_uploaded", "bytes_downloaded", "bytes_left",
        "event", "flags"].contains c) = true := by decide
  have hu : ∃ x, peerSchema.assign
      ["ip", "port", "bytes_uploaded", "bytes_downloaded", "bytes_left", "event", "flags"]
      [.str p.IP, .int p.Port, .int p.BytesUploaded, .int p.BytesDownloaded, .int p.BytesLeft,
        .str p.Event, .int p.Flags] peerSchema.blank = .ok x := by
    simp [Schema.assign, peerSchema, setStr, setInt]
  obtain ⟨x, hx⟩ := hu
  simp only [Schema.insertInto, hcols, if_true, List.length_cons,
    List.length_nil, List.take, List.drop, hr, hx, peer_updateDuplicates, peer_sameKey]
  by_cases hk : rows.any (fun old => decide (p.InfoHash = old.infoHash ∧ p.PeerID = old.peerId))
      = true
  · simp only [upsertPeerRows, PeerInfo.toRow, hk, if_true]
  · simp only [upsertPeerRows, PeerInfo.toRow, hk]
    rfl

theorem manifest_updateDuplicates (m : Manifest) (r : ManifestRow) (rows : List ManifestRow) :
    manifestSchema.updateDuplicates r ["manifest", "flags"] [.str m.Manifest, .int m.Flags] rows
    = .ok (rows.map (fun old =>
      if r.tagName = old.tagName then { old with manifest := m.Manifest, flags := m.Flags }
      else old)) := by
  induction rows with
  | nil => rfl
  | cons old rest ih =>
    simp only [Schema.updateDuplicates, ih, manifest_sameKey, List.map_cons]
    by_cases hk : r.tagName = old.tagName
    · simp [hk, Schema.assign, manifestSchema, setStr, setInt]
    · simp [hk]

theorem manifest_upsert (m : Manifest) (rows : List ManifestRow) :
    manifestSchema.insertInto ["tagName", "manifest", "flags"] (some ["manifest", "flags"])
      [.str m.TagName, .str m.Manifest, .int m.Flags, .str m.Manifest, .int m.Flags] rows
      = .ok (upsertManifestRows m rows) := by
  have hr : manifestSchema.assign ["tagName", "manifest", "flags"]
      [.str m.TagName, .str m.Manifest, .int m.Flags] manifestSchema.blank = .ok m.toRow := by
    simp [Schema.assign, manifestSchema, setStr, setInt, Manifest.toRow]
  have hcols : manifestSchema.cols.all (fun c =>
      ["tagName", "manifest", "flags"].contains c) = true := by decide
  have hu : ∃ x, manifestSchema.assign ["manifest", "flags"]
      [.str m.Manifest, .int m.Flags] manifestSchema.blank = .ok x := by
    simp [Schema.assign, manifestSchema, setStr, setInt]
  obtain ⟨x, hx⟩ := hu
  simp only [Schema.insertInto, hcols, if_true, List.length_cons,
    List.length_nil, List.take, List.drop, hr, hx, manifest_updateDuplicates, manifest_sameKey]
  by_cases hk : rows.any (fun old => decide (m.TagName = old.tagName)) = true
  · simp only [upsertManifestRows, Manifest.toRow, hk, if_true]
  · simp only [upsertManifestRows, Manifest.toRow, hk]
    rfl

theorem torrent_insert (t : TorrentInfo) (rows : List TorrentRow) :
    torrentSchema.insertInto
      ["torrentName", "infoHash", "author", "numPieces", "pieceLength", "refcount", "flags"] none
      [.str t.TorrentName, .str t.InfoHash, .str t.Author, .int t.NumPieces,
        .int t.PieceLength, .int t.RefCount, .int t.Flags] rows
      = if rows.any (fun old => t.TorrentName = old.torrentName) then
          .error (.duplicateKey "torrent")
        else .ok (rows ++ [t.toRow]) := by
  have hr : torrentSchema.assign
      ["torrentName", "infoHash", "author", "numPieces", "pieceLength", "refcount", "flags"]
      [.str t.TorrentName, .str t.InfoHash, .str t.Author, .int t.NumPieces,
        .int t.PieceLength, .int t.RefCount, .int t.Flags] torrentSchema.blank
      = .ok t.toRow := by
    simp [Schema.assign, torrentSchema, setStr, setInt, TorrentInfo.toRow]
  have hcols : torrentSchema.cols.all (fun c =>
      ["torrentName", "infoHash", "author", "numPieces", "pieceLength", "refcount",
        "flags"].contains c) = true := by decide
  simp only [Schema.insertInto, hcols, if_true, List.length_cons,
    List.length_nil, List.take, hr, torrent_sameKey]
  rfl

/-! ## The operations of the store, evaluated -/

theorem peer_keysUnique_iff (rows : List PeerRow) :
    peerSchema.KeysUnique rows
      ↔ rows.Pairwise (fun a b => ¬ (a.infoHash = b.infoHash ∧ a.peerId = b.peerId)) := by
  simp [Schema.KeysUnique, peer_sameKey]

theorem torrent_keysUnique_iff (rows : List TorrentRow) :
    torrentSchema.KeysUnique rows ↔ rows.Pairwise (fun a b => a.torrentName ≠ b.torrentName) := by
  simp [Schema.KeysUnique, torrent_sameKey]

theorem manifest_keysUnique_iff (rows : List ManifestRow) :
    manifestSchema.KeysUnique rows ↔ rows.Pairwise (fun a b => a.tagName ≠ b.tagName) := by
  simp [Schema.KeysUnique, manifest_sameKey]

theorem scanPeerInfo_values (r : PeerRow) : scanPeerInfo r.values = .ok r.toPeerInfo := rfl

theorem scanTorrentInfo_values (r : TorrentRow) :
    scanTorrentInfo r.values = .ok r.toTorrentInfo := rfl

theorem scanManifest_values (r : ManifestRow) : scanManifest r.values = .ok r.toManifest := rfl

theorem readLoop_values (rows : List PeerRow) (acc : List PeerInfo) :
    readLoop (rows.map PeerRow.values) acc = (acc ++ rows.map PeerRow.toPeerInfo, none) := by
  induction rows generalizing acc with
  | nil => simp [readLoop]
  | cons r rest ih => simp [readLoop, scanPeerInfo_values, ih]

theorem Read_of_healthy (ds : MySQLDataStore) (link : Link) (h : String)
    (hf : link.fail = none) (hc : link.cut = none) :
    ds.Read link h
      = ((ds.db.peer.filter (fun r => r.infoHash = h)).map PeerRow.toPeerInfo, none) := by
  simp [MySQLDataStore.Read, DB.Query, hf, hc, eval_selectPeer, readLoop_values]

theorem run_upsertPeer (db : DB) (p : PeerInfo) :
    db.run upsertPeerStatememtStr
      [.str p.InfoHash, .str p.PeerID, .str p.IP, .int p.Port,
        .int p.BytesUploaded, .int p.BytesDownloaded, .int p.BytesLeft,
        .str p.Event, .int p.Flags,
        .str p.IP, .int p.Port, .int p.BytesUploaded,
        .int p.BytesDownloaded, .int p.BytesLeft, .str p.Event,
        .int p.Flags]
      = .ok { db with peer := upsertPeerRows p db.peer } := by
  simp only [DB.run, upsertPeerStatememtStr, peer_upsert, if_true]

theorem Update_eq (ds : MySQLDataStore) (link : Link) (p : PeerInfo) :
    ds.Update link p
      = match link.fail with
        | some e => (ds, some e)
        | none => (⟨{ ds.db with peer := upsertPeerRows p ds.db.peer }⟩, none) := by
  cases hf : link.fail <;> simp [MySQLDataStore.Update, DB.Exec, hf, run_upsertPeer]

theorem Update_fail_none (ds : MySQLDataStore) (link : Link) (p : PeerInfo)
    (h : (ds.Update link p).2 = none) : link.fail = none := by
  rw [Update_eq] at h
  cases hf : link.fail with
  | none => rfl
  | some e => rw [hf] at h; simp at h

theorem peer_overwrite_filter_nil (p : PeerInfo) (rows : List PeerRow)
    (hno : ∀ r ∈ rows, ¬ (p.InfoHash = r.infoHash ∧ p.PeerID = r.peerId)) :
    (rows.map (fun old =>
      if p.InfoHash = old.infoHash ∧ p.PeerID = old.peerId then
        { old with ip := p.IP, port := p.Port, bytes_uploaded := p.BytesUploaded,
                   bytes_downloaded := p.BytesDownloaded, bytes_left := p.BytesLeft,
                   event := p.Event, flags := p.Flags }
      else old)).filter (fun r => r.infoHash = p.InfoHash ∧ r.peerId = p.PeerID) = [] := by
  rw [List.filter_eq_nil_iff]
  intro r hr
  rw [List.mem_map] at hr
  obtain ⟨old, hold, rfl⟩ := hr
  have h := hno old hold
  simp only [h, if_false, decide_eq_true_eq]
  intro hk
  exact h ⟨hk.1.symm, hk.2.symm⟩

theorem peer_overwrite_filter (p : PeerInfo) (rows : List PeerRow)
    (hu : rows.Pairwise (fun a b => ¬ (a.infoHash = b.infoHash ∧ a.peerId = b.peerId)))
    (hany : ∃ r ∈ rows, p.InfoHash = r.infoHash ∧ p.PeerID = r.peerId) :
    (rows.map (fun old =>
      if p.InfoHash = old.infoHash ∧ p.PeerID = old.peerId then
        { old with ip := p.IP, port := p.Port, bytes_uploaded := p.BytesUploaded,
                   bytes_downloaded := p.BytesDownloaded, bytes_left := p.BytesLeft,
                   event := p.Event, flags := p.Flags }
      else old)).filter (fun r => r.infoHash = p.InfoHash ∧ r.peerId = p.PeerID)
      = [p.toRow] := by
  induction rows with
  | nil => obtain ⟨r, hr, _⟩ := hany; cases hr
  | cons a rest ih =>
    rw [List.pairwise_cons] at hu
    obtain ⟨ha, hrest⟩ := hu
    by_cases hk : p.InfoHash = a.infoHash ∧ p.PeerID = a.peerId
    · have hno : ∀ r ∈ rest, ¬ (p.InfoHash = r.infoHash ∧ p.PeerID = r.peerId) := by
        intro r hr hkr
        exact ha r hr ⟨hk.1.symm.trans hkr.1, hk.2.symm.trans hkr.2⟩
      rw [List.map_cons, List.filter_cons, peer_overwrite_filter_nil p rest hno]
      simp [hk, PeerInfo.toRow]
    · have hany2 : ∃ r ∈ rest, p.InfoHash = r.infoHash ∧ p.PeerID = r.peerId := by
        obtain ⟨r, hr, hkr⟩ := hany
        rcases List.mem_cons.mp hr with rfl | hr
        · exact absurd hkr hk
        · exact ⟨r, hr, hkr⟩
      rw [List.map_cons, List.filter_cons, ih hrest hany2]
      have hk2 : ¬ (a.infoHash = p.InfoHash ∧ a.peerId = p.PeerID) :=
        fun h => hk ⟨h.1.symm, h.2.symm⟩
      simp [hk, hk2]

theorem upsertPeerRows_filter (p : PeerInfo) (rows : List PeerRow)
    (hu : peerSchema.KeysUnique rows) :
    (upsertPeerRows p rows).filter (fun r => r.infoHash = p.InfoHash ∧ r.peerId = p.PeerID)
      = [p.toRow] := by
  rw [peer_keysUnique_iff] at hu
  unfold upsertPeerRows
  split
  · rename_i hany
    simp only [List.any_eq_true, decide_eq_true_eq] at hany
    exact peer_overwrite_filter p rows hu hany
  · rename_i hany
    simp only [List.any_eq_true, decide_eq_true_eq, not_exists, not_and] at hany
    rw [List.filter_append, List.filter_eq_nil_iff.mpr]
    · simp [PeerInfo.toRow]
    · intro r hr
      simp only [decide_eq_true_eq, not_and]
      intro h1 h2
      exact hany r hr h1.symm h2.symm

theorem filter_key_unique {α : Type} (k : α → String) (rows : List α)
    (hu : rows.Pairwise (fun a b => k a ≠ k b)) (r : α) (hr : r ∈ rows) :
    rows.filter (fun x => k x = k r) = [r] := by
  induction rows with
  | nil => cases hr
  | cons a rest ih =>
    rw [List.pairwise_cons] at hu
    obtain ⟨ha, hrest⟩ := hu
    rcases List.mem_cons.mp hr with rfl | hr
    · rw [List.filter_cons, List.filter_eq_nil_iff.mpr]
      · simp
      · intro b hb
        simpa using (ha b hb).symm
    · have hne : k a ≠ k r := ha r hr
      rw [List.filter_cons, ih hrest hr]
      simp [hne]

theorem ReadTorrent_eq (ds : MySQLDataStore) (link : Link) (n : String) :
    ds.ReadTorrent link n
      = match link.fail with
        | some e => (none, some e)
        | none =>
          match link.cut with
          | none =>
            match ds.db.torrent.filter (fun r => r.torrentName = n) with
            | r :: _ => (some r.toTorrentInfo, none)
            | [] => (none, none)
          | some (k, e) =>
            match (ds.db.torrent.filter (fun r => r.torrentName = n)).take k with
            | r :: _ => (some r.toTorrentInfo, none)
            | [] => (none, some e) := by
  unfold MySQLDataStore.ReadTorrent DB.Query
  rw [eval_selectTorrent]
  cases link.fail with
  | some e => rfl
  | none =>
    cases link.cut with
    | none =>
      simp only []
      cases ds.db.torrent.filter (fun r => r.torrentName = n) with
      | nil => rfl
      | cons r rest => simp [scanTorrentInfo_values]
    | some ke =>
      obtain ⟨k, e⟩ := ke
      simp only [← List.map_take]
      cases (ds.db.torrent.filter (fun r => r.torrentName = n)).take k with
      | nil => rfl
      | cons r rest => simp [scanTorrentInfo_values]

theorem ReadManifest_eq (ds : MySQLDataStore) (link : Link) (n : String) :
    ds.ReadManifest link n
      = match link.fail with
        | some e => (none, some e)
        | none =>
          match link.cut with
          | none =>
            match ds.db.manifest.filter (fun r => r.tagName = n) with
            | r :: _ => (some r.toManifest, none)
            | [] => (none, none)
          | some (k, e) =>
            match (ds.db.manifest.filter (fun r => r.tagName = n)).take k with
            | r :: _ => (some r.toManifest, none)
            | [] => (none, some e) := by
  unfold MySQLDataStore.ReadManifest DB.Query
  rw [eval_selectManifest]
  cases link.fail with
  | some e => rfl
  | none =>
    cases link.cut with
    | none =>
      simp only []
      cases ds.db.manifest.filter (fun r => r.tagName = n) with
      | nil => rfl
      | cons r rest => simp [scanManifest_values]
    | some ke =>
      obtain ⟨k, e⟩ := ke
      simp only [← List.map_take]
      cases (ds.db.manifest.filter (fun r => r.tagName = n)).take k with
      | nil => rfl
      | cons r rest => simp [scanManifest_values]

theorem CreateTorrent_eq (ds : MySQLDataStore) (link : Link) (t : TorrentInfo) :
    ds.CreateTorrent link t
      = match link.fail with
        | some e => (ds, some e)
        | none =>
          if ds.db.torrent.any (fun old => t.TorrentName = old.torrentName) then
            (ds, some (.duplicateKey "torrent"))
          else (⟨{ ds.db with torrent := ds.db.torrent ++ [t.toRow] }⟩, none) := by
  cases hf : link.fail with
  | some e => simp [MySQLDataStore.CreateTorrent, DB.Exec, hf]
  | none =>
    simp only [MySQLDataStore.CreateTorrent, DB.Exec, hf, DB.run, insertTorrentStatememtStr,
      torrent_insert]
    by_cases hk : ds.db.torrent.any (fun old => decide (t.TorrentName = old.torrentName)) = true
    · simp [hk]
    · simp [hk]

theorem DeleteTorrent_eq (ds : MySQLDataStore) (link : Link) (n : String) :
    ds.DeleteTorrent link n
      = match link.fail with
        | some e => (ds, some e)
        | none =>
          (⟨{ ds.db with torrent := ds.db.torrent.filter (fun r => r.torrentName ≠ n) }⟩,
            none) := by
  cases hf : link.fail <;> simp [MySQLDataStore.DeleteTorrent, DB.Exec, hf, run_deleteTorrent]

theorem UpdateManifest_eq (ds : MySQLDataStore) (link : Link) (m : Manifest) :
    ds.UpdateManifest link m
      = match link.fail with
        | some e => (ds, some e)
        | none => (⟨{ ds.db with manifest := upsertManifestRows m ds.db.manifest }⟩, none) := by
  cases hf : link.fail <;>
    simp [MySQLDataStore.UpdateManifest, DB.Exec, hf, DB.run, upsertManifestStatememtStr,
      manifest_upsert]

theorem DeleteAllHashes_eq (ds : MySQLDataStore) (link : Link) (h : String) :
    ds.DeleteAllHashes link h
      = match link.fail with
        | some e => (ds, some e)
        | none => (ds, some (.unknownColumn "hashInfo")) := by
  cases hf : link.fail <;>
    simp [MySQLDataStore.DeleteAllHashes, DB.Exec, hf, run_deletePeerByHashInfo]

theorem DeleteAllPeers_eq (ds : MySQLDataStore) (link : Link) (peerID : String) :
    ds.DeleteAllPeers link peerID
      = match link.fail with
        | some e => (ds, some e)
        | none => (ds, some (.unknownColumn "hashInfo")) := by
  cases hf : link.fail <;>
    simp [MySQLDataStore.DeleteAllPeers, DB.Exec, hf, run_deletePeerByHashInfo]

theorem manifest_overwrite_tagName (m : Manifest) (old : ManifestRow) :
    (if m.TagName = old.tagName then
        ({ old with manifest := m.Manifest, flags := m.Flags } : ManifestRow)
      else old).tagName = old.tagName := by
  split <;> rfl

theorem upsertManifestRows_unique (m : Manifest) (rows : List ManifestRow)
    (hu : manifestSchema.KeysUnique rows) :
    manifestSchema.KeysUnique (upsertManifestRows m rows) := by
  rw [manifest_keysUnique_iff] at hu ⊢
  unfold upsertManifestRows
  split
  · rw [List.pairwise_map]
    refine hu.imp ?_
    intro a b hab
    rw [manifest_overwrite_tagName, manifest_overwrite_tagName]
    exact hab
  · rename_i hany
    simp only [List.any_eq_true, decide_eq_true_eq, not_exists, not_and] at hany
    rw [List.pairwise_append]
    refine ⟨hu, List.pairwise_singleton _ _, ?_⟩
    intro a ha b hb
    rw [List.mem_singleton] at hb
    subst hb
    exact fun h => hany a ha h.symm

theorem upsertManifestRows_filter (m : Manifest) (rows : List ManifestRow)
    (hu : manifestSchema.KeysUnique rows) :
    (upsertManifestRows m rows).filter (fun r => r.tagName = m.TagName) = [m.toRow] := by
  have hu2 := upsertManifestRows_unique m rows hu
  rw [manifest_keysUnique_iff] at hu2
  have hmem : m.toRow ∈ upsertManifestRows m rows := by
    unfold upsertManifestRows
    split
    · rename_i hany
      simp only [List.any_eq_true, decide_eq_true_eq] at hany
      obtain ⟨old, hold, hk⟩ := hany
      rw [List.mem_map]
      refine ⟨old, hold, ?_⟩
      simp [hk, Manifest.toRow]
    · simp
  exact filter_key_unique (fun r : ManifestRow => r.tagName) _ hu2 m.toRow hmem

theorem ReadTorrent_none_iff (ds : MySQLDataStore) (link : Link) (n : String) :
    ds.ReadTorrent link n = (none, none)
      ↔ link.fail = none ∧ link.cut = none ∧ ∀ r ∈ ds.db.torrent, r.torrentName ≠ n := by
  rw [ReadTorrent_eq]
  cases link.fail with
  | some e => simp
  | none =>
    cases link.cut with
    | some ke =>
      obtain ⟨k, e⟩ := ke
      simp only []
      cases (ds.db.torrent.filter (fun r => r.torrentName = n)).take k <;> simp
    | none =>
      simp only []
      cases hfl : ds.db.torrent.filter (fun r => r.torrentName = n) with
      | nil =>
        rw [List.filter_eq_nil_iff] at hfl
        simpa using hfl
      | cons r rest =>
        have hmem : r ∈ ds.db.torrent.filter (fun r => r.torrentName = n) := by
          rw [hfl]; exact List.mem_cons_self _ _
        rw [List.mem_filter] at hmem
        simp only [Prod.mk.injEq, and_true, true_and, reduceCtorEq, false_iff, not_forall]
        exact ⟨r, hmem.1, by simpa using hmem.2⟩

theorem ReadManifest_none_iff (ds : MySQLDataStore) (link : Link) (n : String) :
    ds.ReadManifest link n = (none, none)
      ↔ link.fail = none ∧ link.cut = none ∧ ∀ r ∈ ds.db.manifest, r.tagName ≠ n := by
  rw [ReadManifest_eq]
  cases link.fail with
  | some e => simp
  | none =>
    cases link.cut with
    | some ke =>
      obtain ⟨k, e⟩ := ke
      simp only []
      cases (ds.db.manifest.filter (fun r => r.tagName = n)).take k <;> simp
    | none =>
      simp only []
      cases hfl : ds.db.manifest.filter (fun r => r.tagName = n) with
      | nil =>
        rw [List.filter_eq_nil_iff] at hfl
        simpa using hfl
      | cons r rest =>
        have hmem : r ∈ ds.db.manifest.filter (fun r => r.tagName = n) := by
          rw [hfl]; exact List.mem_cons_self _ _
        rw [List.mem_filter] at hmem
        simp only [Prod.mk.injEq, and_true, true_and, reduceCtorEq, false_iff, not_forall]
        exact ⟨r, hmem.1, by simpa using hmem.2⟩

/-! ## Name resolution and the tag client -/

namespace nameparse

theorem segments_ne_nil (l : List Char) : segments l ≠ [] := by
  cases l with
  | nil => simp [segments]
  | cons c cs =>
    unfold segments
    split
    · simp
    · split <;> simp

theorem segments_append (a b : List Char) :
    segments (a ++ '/' :: b) = segments a ++ segments b := by
  induction a with
  | nil => simp [segments]
  | cons c cs ih =>
    by_cases hc : c = '/'
    · simp [segments, hc, ih]
    · have hne := segments_ne_nil cs
      cases hs : segments cs with
      | nil => exact absurd hs hne
      | cons s ss => simp [segments, hc, ih, hs]

theorem splitRepoTag_none (l : List Char) (h : ':' ∉ l) : splitRepoTag l = none := by
  induction l with
  | nil => rfl
  | cons c cs ih =>
    rw [List.mem_cons, not_or] at h
    have hc : c ≠ ':' := fun e => h.1 e.symm
    simp [splitRepoTag, hc, ih h.2]

theorem splitRepoTag_append (repo tag : List Char) :
    ∃ r t, splitRepoTag (repo ++ ':' :: tag) = some (r, t) ∧
      ((r = repo ∧ t = tag) ∨ ':' ∈ t) := by
  induction repo with
  | nil => exact ⟨[], tag, by simp [splitRepoTag], Or.inl ⟨rfl, rfl⟩⟩
  | cons c cs ih =>
    obtain ⟨r, t, hs, hrt⟩ := ih
    by_cases hc : c = ':'
    · refine ⟨[], cs ++ ':' :: tag, by simp [splitRepoTag, hc], Or.inr ?_⟩
      simp
    · refine ⟨c :: r, t, by simp [splitRepoTag, hc, hs], ?_⟩
      rcases hrt with ⟨h1, h2⟩ | h
      · exact Or.inl ⟨by rw [h1], h2⟩
      · exact Or.inr h

theorem RepoTagPath_traversal (disallowed : Char → Bool) (root : String) (repo tag : List Char)
    (h : ['.', '.'] ∈ segments repo ∨ ['.', '.'] ∈ segments tag) :
    ∃ e, RepoTagPath disallowed root (String.mk (repo ++ ':' :: tag)) = .error e := by
  obtain ⟨r, t, hs, hrt⟩ := splitRepoTag_append repo tag
  simp only [RepoTagPath, String.toList, hs]
  rcases hrt with ⟨rfl, rfl⟩ | hc
  · split_ifs <;> exact ⟨_, rfl⟩
  · rw [if_pos hc]
    exact ⟨_, rfl⟩

theorem RepoTagPath_no_separator (disallowed : Char → Bool) (root : String) (l : List Char)
    (h : ':' ∉ l) : ∃ e, RepoTagPath disallowed root (String.mk l) = .error e := by
  simp only [RepoTagPath, String.toList, splitRepoTag_none l h]
  exact ⟨_, rfl⟩

theorem RepoTagPath_empty_repo (disallowed : Char → Bool) (root : String) (tag : List Char) :
    ∃ e, RepoTagPath disallowed root (String.mk (':' :: tag)) = .error e := by
  simp only [RepoTagPath, String.toList, splitRepoTag, if_true]
  split_ifs <;> exact ⟨_, rfl⟩

theorem RepoTagPath_empty_tag (disallowed : Char → Bool) (root : String) (repo : List Char) :
    ∃ e, RepoTagPath disallowed root (String.mk (repo ++ [':'])) = .error e := by
  obtain ⟨r, t, hs, hrt⟩ := splitRepoTag_append repo []
  simp only [RepoTagPath, String.toList, hs]
  rcases hrt with ⟨rfl, rfl⟩ | hc
  · split_ifs <;> first | exact ⟨_, rfl⟩ | (exfalso; simp_all)
  · rw [if_pos hc]
    exact ⟨_, rfl⟩

theorem RepoTagPath_under_root (disallowed : Char → Bool) (root name p : String)
    (h : RepoTagPath disallowed root name = .ok p) :
    ∃ rel : String, p = root ++ "/" ++ rel ∧ ['.', '.'] ∉ segments rel.toList := by
  unfold RepoTagPath at h
  split at h
  · cases h
  · rename_i repo tag hs
    split_ifs at h with h1 h2 h3 h4 h5
    injection h with h
    refine ⟨String.mk repo ++ "/" ++ String.mk tag, h.symm, ?_⟩
    have hl : (String.mk repo ++ "/" ++ String.mk tag).toList = repo ++ '/' :: tag := by
      simp [String.toList, String.data_append]
    rw [hl, segments_append, List.mem_append]
    exact h5

end nameparse

/-! ## The claims on the store -/

/-- C1: `DeleteAllPeers(peerID)` runs the statement `delete from peer where hashInfo = ?`
(the by-hash statement, not `deletePeerByPeerIDStr`): on every store and for every peer
ID it returns an error and leaves every row in place, the rows of that peer included.
On the example store, whose one row has infoHash "h1" and peerId "p1", the row is still
read after `DeleteAllPeers("p1")`; the statement with its column spelled `infoHash` and
bound to "p1" would keep it as well, while `deletePeerByPeerIDStr` removes it. -/
theorem deleteAllPeers_removes_nothing :
    (∀ (ds : MySQLDataStore) (link : Link) (peerID : String),
        (ds.DeleteAllPeers link peerID).1 = ds ∧ (ds.DeleteAllPeers link peerID).2 ≠ none) ∧
      examplePeerStore.DeleteAllPeers Link.healthy "p1"
        = (examplePeerStore, some (.unknownColumn "hashInfo")) ∧
      ((examplePeerStore.DeleteAllPeers Link.healthy "p1").1.Read Link.healthy "h1").1
        = [examplePeer] ∧
      (examplePeerStore.db.Exec Link.healthy (.delete "peer" "infoHash") [.str "p1"]).1.peer
        = [examplePeer.toRow] ∧
      (examplePeerStore.db.Exec Link.healthy deletePeerByPeerIDStr [.str "p1"]).1.peer = [] := by
  refine ⟨?_, by decide, by decide, by decide, by decide⟩
  intro ds link peerID
  rw [DeleteAllPeers_eq]
  cases link.fail <;> simp

/-- C2: `DeleteAllHashes(h)` runs `delete from peer where hashInfo = ?`, and `hashInfo`
is not the column `infoHash` that the select and upsert statements read and write: on
every store and for every hash it returns an error and leaves every row in place. On the
example store, whose one row has infoHash "h1", `Read("h1")` after
`DeleteAllHashes("h1")` still returns that peer. -/
theorem deleteAllHashes_removes_nothing :
    (∀ (ds : MySQLDataStore) (link : Link) (h : String),
        (ds.DeleteAllHashes link h).1 = ds ∧ (ds.DeleteAllHashes link h).2 ≠ none) ∧
      deletePeerByHashInfoStr = .delete "peer" "hashInfo" ∧
      selectPeerStatememtStr = .select peerSchema.cols "peer" "infoHash" ∧
      examplePeerStore.DeleteAllHashes Link.healthy "h1"
        = (examplePeerStore, some (.unknownColumn "hashInfo")) ∧
      (examplePeerStore.DeleteAllHashes Link.healthy "h1").1.Read Link.healthy "h1"
        = ([examplePeer], none) := by
  refine ⟨?_, rfl, rfl, by decide, by decide⟩
  intro ds link h
  rw [DeleteAllHashes_eq]
  cases link.fail <;> simp

/-- C3: on a peer table with at most one row per (infoHash, peerID), after `Update(p)`
succeeds, `Read(p.InfoHash)` over a connection on which nothing goes wrong returns no
error and exactly one record whose PeerID is that of `p`, and that record is `p` itself:
its IP, Port, BytesUploaded, BytesDownloaded, BytesLeft, Event and Flags are those of `p`,
whether the key was absent before (insert) or present (overwrite). -/
theorem update_then_read (ds : MySQLDataStore) (l1 l2 : Link) (p : PeerInfo)
    (hu : peerSchema.KeysUnique ds.db.peer)
    (hupd : (ds.Update l1 p).2 = none)
    (hf : l2.fail = none) (hc : l2.cut = none) :
    ((ds.Update l1 p).1.Read l2 p.InfoHash).2 = none ∧
      ((ds.Update l1 p).1.Read l2 p.InfoHash).1.filter (fun q => q.PeerID = p.PeerID) = [p] := by
  have hl1 := Update_fail_none ds l1 p hupd
  rw [Read_of_healthy _ _ _ hf hc, Update_eq, hl1]
  refine ⟨rfl, ?_⟩
  simp only [List.filter_map, List.filter_filter]
  have h := upsertPeerRows_filter p ds.db.peer hu
  have he : (fun r : PeerRow =>
      ((fun q : PeerInfo => decide (q.PeerID = p.PeerID)) ∘ PeerRow.toPeerInfo) r
        && decide (r.infoHash = p.InfoHash))
      = (fun r : PeerRow => decide (r.infoHash = p.InfoHash ∧ r.peerId = p.PeerID)) := by
    funext r
    simp [PeerRow.toPeerInfo, Bool.and_comm]
  rw [he, h]
  rfl

/-- Witness of C3: the overwrite of the one row of the example store. -/
theorem update_then_read_witness :
    (peerSchema.KeysUnique examplePeerStore.db.peer ∧
      (examplePeerStore.Update Link.healthy examplePeerLater).2 = none ∧
      Link.healthy.fail = none ∧ Link.healthy.cut = none) ∧
    (((examplePeerStore.Update Link.healthy examplePeerLater).1.Read Link.healthy
        examplePeerLater.InfoHash).2 = none ∧
      ((examplePeerStore.Update Link.healthy examplePeerLater).1.Read Link.healthy
        examplePeerLater.InfoHash).1.filter (fun q => q.PeerID = examplePeerLater.PeerID)
        = [examplePeerLater]) :=
  ⟨⟨List.pairwise_singleton _ _, by decide, rfl, rfl⟩,
    update_then_read examplePeerStore Link.healthy Link.healthy examplePeerLater
      (List.pairwise_singleton _ _) (by decide) rfl rfl⟩

/-- C4: when a torrent row named `t.TorrentName` exists, `CreateTorrent(t)` returns a
non-nil error (the duplicate-key error, or the error of the connection when the statement
does not reach the server) and leaves
the store unchanged, and a following `ReadTorrent` of that name, over a connection on
which nothing goes wrong, returns the original row: its infoHash, author, numPieces,
pieceLength, refCount and flags, not those of `t`. -/
theorem createTorrent_existing (ds : MySQLDataStore) (l1 l2 : Link) (t : TorrentInfo)
    (r : TorrentRow) (hu : torrentSchema.KeysUnique ds.db.torrent)
    (hr : r ∈ ds.db.torrent) (hn : r.torrentName = t.TorrentName)
    (hf : l2.fail = none) (hc : l2.cut = none) :
    (ds.CreateTorrent l1 t).2 ≠ none ∧
      (ds.CreateTorrent l1 t).2 = some (l1.fail.getD (.duplicateKey "torrent")) ∧
      (ds.CreateTorrent l1 t).1 = ds ∧
      (ds.CreateTorrent l1 t).1.ReadTorrent l2 t.TorrentName
        = (some ⟨r.torrentName, r.infoHash, r.author, r.numPieces, r.pieceLength, r.refcount,
            r.flags⟩, none) := by
  have hany : ds.db.torrent.any (fun old => decide (t.TorrentName = old.torrentName)) = true := by
    rw [List.any_eq_true]
    exact ⟨r, hr, by simpa using hn.symm⟩
  have hsame : (ds.CreateTorrent l1 t).1 = ds := by
    rw [CreateTorrent_eq]
    cases l1.fail <;> simp [hany]
  refine ⟨?_, ?_, hsame, ?_⟩
  · rw [CreateTorrent_eq]
    cases l1.fail <;> simp [hany]
  · rw [CreateTorrent_eq]
    cases l1.fail <;> simp [hany]
  · rw [hsame, ReadTorrent_eq, hf, hc, ← hn]
    rw [torrent_keysUnique_iff] at hu
    simp only []
    rw [filter_key_unique (fun x : TorrentRow => x.torrentName) _ hu r hr]
    rfl

/-- Witness of C4: a second torrent named "ubuntu". -/
theorem createTorrent_existing_witness :
    (torrentSchema.KeysUnique exampleTorrentStore.db.torrent ∧
      exampleTorrent.toRow ∈ exampleTorrentStore.db.torrent ∧
      exampleTorrent.toRow.torrentName = exampleTorrentClash.TorrentName ∧
      Link.healthy.fail = none ∧ Link.healthy.cut = none) ∧
    ((exampleTorrentStore.CreateTorrent Link.healthy exampleTorrentClash).2 ≠ none ∧
      (exampleTorrentStore.CreateTorrent Link.healthy exampleTorrentClash).2
        = some (.duplicateKey "torrent") ∧
      (exampleTorrentStore.CreateTorrent Link.healthy exampleTorrentClash).1
        = exampleTorrentStore ∧
      (exampleTorrentStore.CreateTorrent Link.healthy exampleTorrentClash).1.ReadTorrent
          Link.healthy exampleTorrentClash.TorrentName
        = (some ⟨"ubuntu", "h1", "alice", 4, 1024, 1, 0⟩, none)) :=
  ⟨⟨List.pairwise_singleton _ _, by decide, rfl, rfl, rfl⟩,
    createTorrent_existing exampleTorrentStore Link.healthy Link.healthy exampleTorrentClash
      exampleTorrent.toRow (List.pairwise_singleton _ _) (by decide) rfl rfl rfl⟩

/-- C5: on a manifest table with at most one row per tagName, for manifests `m1` and
`m2` with the same TagName: after `UpdateManifest(m1)` succeeds, `ReadManifest` of the tag
returns `m1` (its Manifest and Flags); after a further `UpdateManifest(m2)` succeeds,
`ReadManifest` returns `m2`, and the table holds a single row for the tag. The reads are
over connections on which nothing goes wrong. -/
theorem updateManifest_then_read (ds : MySQLDataStore) (l1 l2 l3 l4 : Link)
    (m1 m2 : Manifest) (htag : m2.TagName = m1.TagName)
    (hu : manifestSchema.KeysUnique ds.db.manifest)
    (h1 : (ds.UpdateManifest l1 m1).2 = none)
    (h2 : l2.fail = none ∧ l2.cut = none)
    (h3 : ((ds.UpdateManifest l1 m1).1.UpdateManifest l3 m2).2 = none)
    (h4 : l4.fail = none ∧ l4.cut = none) :
    (ds.UpdateManifest l1 m1).1.ReadManifest l2 m1.TagName = (some m1, none) ∧
      ((ds.UpdateManifest l1 m1).1.UpdateManifest l3 m2).1.ReadManifest l4 m1.TagName
        = (some m2, none) ∧
      (((ds.UpdateManifest l1 m1).1.UpdateManifest l3 m2).1.db.manifest.filter
        (fun r => r.tagName = m1.TagName)).length = 1 := by
  have hl1 : l1.fail = none := by
    rw [UpdateManifest_eq] at h1
    cases hf : l1.fail with
    | none => rfl
    | some e => rw [hf] at h1; simp at h1
  have hl3 : l3.fail = none := by
    rw [UpdateManifest_eq] at h3
    cases hf : l3.fail with
    | none => rfl
    | some e => rw [hf] at h3; simp at h3
  have e1 : (ds.UpdateManifest l1 m1).1
      = ⟨{ ds.db with manifest := upsertManifestRows m1 ds.db.manifest }⟩ := by
    rw [UpdateManifest_eq, hl1]
  have hu1 := upsertManifestRows_unique m1 ds.db.manifest hu
  have f1 := upsertManifestRows_filter m1 ds.db.manifest hu
  have f2 := upsertManifestRows_filter m2 (upsertManifestRows m1 ds.db.manifest) hu1
  rw [htag] at f2
  refine ⟨?_, ?_, ?_⟩
  · rw [e1, ReadManifest_eq, h2.1, h2.2]
    simp only []
    rw [f1]
    rfl
  · rw [e1, UpdateManifest_eq, hl3, ReadManifest_eq, h4.1, h4.2]
    simp only []
    rw [f2]
    rfl
  · rw [e1, UpdateManifest_eq, hl3]
    simp only []
    rw [f2]
    rfl

/-- Witness of C5: the tag "app:latest" written twice to an empty store. -/
theorem updateManifest_then_read_witness :
    (exampleManifestLater.TagName = exampleManifest.TagName ∧
      manifestSchema.KeysUnique emptyStore.db.manifest ∧
      (emptyStore.UpdateManifest Link.healthy exampleManifest).2 = none ∧
      (Link.healthy.fail = none ∧ Link.healthy.cut = none) ∧
      ((emptyStore.UpdateManifest Link.healthy exampleManifest).1.UpdateManifest Link.healthy
        exampleManifestLater).2 = none) ∧
    ((emptyStore.UpdateManifest Link.healthy exampleManifest).1.ReadManifest Link.healthy
        exampleManifest.TagName = (some exampleManifest, none) ∧
      ((emptyStore.UpdateManifest Link.healthy exampleManifest).1.UpdateManifest Link.healthy
        exampleManifestLater).1.ReadManifest Link.healthy exampleManifest.TagName
        = (some exampleManifestLater, none) ∧
      (((emptyStore.UpdateManifest Link.healthy exampleManifest).1.UpdateManifest Link.healthy
        exampleManifestLater).1.db.manifest.filter
        (fun r => r.tagName = exampleManifest.TagName)).length = 1) :=
  ⟨⟨rfl, List.Pairwise.nil, by decide, ⟨rfl, rfl⟩, by decide⟩,
    updateManifest_then_read emptyStore Link.healthy Link.healthy Link.healthy Link.healthy
      exampleManifest exampleManifestLater rfl List.Pairwise.nil (by decide) ⟨rfl, rfl⟩
      (by decide) ⟨rfl, rfl⟩⟩

/-- C6: `ReadTorrent(n)` returns (nil, nil) exactly when the query succeeds (the
connection reports no error, neither for the statement nor during the iteration) and
no torrent row is named `n`; and `ReadManifest(n)` returns (nil, nil) exactly when the
query succeeds and no manifest row has the tag `n`. So an absent row read over a
working connection gives a nil result and a nil error, and a nil result with a nil
error is returned only when no such row exists. -/
theorem read_absent_iff (ds : MySQLDataStore) (link : Link) (n : String) :
    (ds.ReadTorrent link n = (none, none)
        ↔ link.fail = none ∧ link.cut = none ∧ ∀ r ∈ ds.db.torrent, r.torrentName ≠ n) ∧
      (ds.ReadManifest link n = (none, none)
        ↔ link.fail = none ∧ link.cut = none ∧ ∀ r ∈ ds.db.manifest, r.tagName ≠ n) :=
  ⟨ReadTorrent_none_iff ds link n, ReadManifest_none_iff ds link n⟩

/-- C10: over connections that reach the server, `DeleteTorrent(n)` on a store `ds0` with
no torrent row named `n` returns a nil error and leaves the store unchanged; and on every
store `ds`, `DeleteTorrent(n)` returns nil, a second `DeleteTorrent(n)` returns nil again
and leaves the state of the first, and `ReadTorrent(n)` then returns (nil, nil). -/
theorem deleteTorrent_idempotent (ds0 ds : MySQLDataStore) (l0 l1 l2 l3 : Link) (n : String)
    (habs : ∀ r ∈ ds0.db.torrent, r.torrentName ≠ n)
    (h0 : l0.fail = none) (h1 : l1.fail = none) (h2 : l2.fail = none)
    (h3 : l3.fail = none ∧ l3.cut = none) :
    ds0.DeleteTorrent l0 n = (ds0, none) ∧
      (ds.DeleteTorrent l1 n).2 = none ∧
      (ds.DeleteTorrent l1 n).1.DeleteTorrent l2 n = ((ds.DeleteTorrent l1 n).1, none) ∧
      ((ds.DeleteTorrent l1 n).1.DeleteTorrent l2 n).1.ReadTorrent l3 n = (none, none) := by
  have hfix : ∀ rows : List TorrentRow,
      (rows.filter (fun r => decide (r.torrentName ≠ n))).filter
        (fun r => decide (r.torrentName ≠ n))
        = rows.filter (fun r => decide (r.torrentName ≠ n)) := by
    intro rows
    rw [List.filter_filter]
    congr 1
    funext r
    simp
  refine ⟨?_, ?_, ?_, ?_⟩
  · rw [DeleteTorrent_eq, h0]
    have hfl : ds0.db.torrent.filter (fun r => decide (r.torrentName ≠ n)) = ds0.db.torrent := by
      rw [List.filter_eq_self]
      intro r hr
      simpa using habs r hr
    simp only [hfl]
  · rw [DeleteTorrent_eq, h1]
  · rw [DeleteTorrent_eq ds, h1]
    simp only []
    rw [DeleteTorrent_eq, h2]
    simp only [hfix]
  · rw [DeleteTorrent_eq ds, h1]
    simp only []
    rw [DeleteTorrent_eq, h2]
    simp only [hfix]
    rw [ReadTorrent_none_iff]
    refine ⟨h3.1, h3.2, ?_⟩
    intro r hr
    simp only [List.mem_filter, decide_eq_true_eq] at hr
    exact hr.2

/-- Witness of C10: "ubuntu" is absent from the empty store and is deleted twice from the
example store. -/
theorem deleteTorrent_idempotent_witness :
    ((∀ r ∈ emptyStore.db.torrent, r.torrentName ≠ "ubuntu") ∧
      Link.healthy.fail = none ∧ (Link.healthy.fail = none ∧ Link.healthy.cut = none)) ∧
    (emptyStore.DeleteTorrent Link.healthy "ubuntu" = (emptyStore, none) ∧
      (exampleTorrentStore.DeleteTorrent Link.healthy "ubuntu").2 = none ∧
      (exampleTorrentStore.DeleteTorrent Link.healthy "ubuntu").1.DeleteTorrent Link.healthy
          "ubuntu"
        = ((exampleTorrentStore.DeleteTorrent Link.healthy "ubuntu").1, none) ∧
      ((exampleTorrentStore.DeleteTorrent Link.healthy "ubuntu").1.DeleteTorrent Link.healthy
          "ubuntu").1.ReadTorrent Link.healthy "ubuntu" = (none, none)) :=
  ⟨⟨by decide, rfl, rfl, rfl⟩,
    deleteTorrent_idempotent emptyStore exampleTorrentStore Link.healthy Link.healthy
      Link.healthy Link.healthy "ubuntu" (by decide) rfl rfl rfl ⟨rfl, rfl⟩⟩

/-! ## The claims on the tag client -/

namespace hdfsbackend

variable {σ : Type}

/-- C7: when `path` returns the error `e` for the name `bad`, `Upload(bad, src)` and
`Download(bad, dst)` return `e` and leave the remote store, the reader and the writer as
they were, whatever the transfer client is, so its upload and download are not called;
when `path` returns the path `p` for the name `good`, `Upload(good, src)` and
`Download(good, dst)` are the transfer client's upload and download at `p`, unmodified. -/
theorem transfer_follows_resolution (RepoTagPath : String → String → Except Error String)
    (c : DockerTagClient σ) (bad good p : String) (e : Error) (src dst : Bytes) (remote : σ)
    (hbad : c.path RepoTagPath bad = .error e) (hgood : c.path RepoTagPath good = .ok p) :
    c.Upload RepoTagPath bad src remote = (remote, src, some e) ∧
      c.Download RepoTagPath bad dst remote = (remote, dst, some e) ∧
      c.Upload RepoTagPath good src remote = c.client.upload p src remote ∧
      c.Download RepoTagPath good dst remote = c.client.download p dst remote := by
  simp only [DockerTagClient.Upload, DockerTagClient.Download, hbad, hgood, and_self]

/-- Witness of C7: a client that records its calls records none for "../../etc:passwd"
and one call for "myrepo:v1". -/
theorem transfer_follows_resolution_witness :
    (exampleTagClient.path (nameparse.RepoTagPath (fun _ => false)) "../../etc:passwd"
        = .error ⟨"path traversal"⟩ ∧
      exampleTagClient.path (nameparse.RepoTagPath (fun _ => false)) "myrepo:v1"
        = .ok "/tags/myrepo/v1") ∧
    (exampleTagClient.Upload (nameparse.RepoTagPath (fun _ => false)) "../../etc:passwd"
        [1, 2] [] = ([], [1, 2], some ⟨"path traversal"⟩) ∧
      exampleTagClient.Download (nameparse.RepoTagPath (fun _ => false)) "../../etc:passwd"
        [3] [] = ([], [3], some ⟨"path traversal"⟩) ∧
      exampleTagClient.Upload (nameparse.RepoTagPath (fun _ => false)) "myrepo:v1" [1, 2] []
        = recordingClient.upload "/tags/myrepo/v1" [1, 2] [] ∧
      exampleTagClient.Download (nameparse.RepoTagPath (fun _ => false)) "myrepo:v1" [3] []
        = recordingClient.download "/tags/myrepo/v1" [3] []) :=
  ⟨⟨rfl, rfl⟩,
    transfer_follows_resolution (nameparse.RepoTagPath (fun _ => false)) exampleTagClient
      "../../etc:passwd" "myrepo:v1" "/tags/myrepo/v1" ⟨"path traversal"⟩ [1, 2] [3] []
      rfl rfl⟩

/-- C8: with the remote store a map from path to bytes, for every configuration, every
name that resolves and all bytes `b`, `Upload(name, b)` returns nil and the following
`Download(name, dst)` on the same client returns nil and appends exactly `b` to `dst`. -/
theorem upload_then_download (RepoTagPath : String → String → Except Error String)
    (config : Config) (name p : String) (b dst : Bytes) (remote : String → Option Bytes)
    (hp : (mapTagClient config).path RepoTagPath name = .ok p) :
    ((mapTagClient config).Upload RepoTagPath name b remote).2.2 = none ∧
      (mapTagClient config).Download RepoTagPath name dst
          ((mapTagClient config).Upload RepoTagPath name b remote).1
        = (((mapTagClient config).Upload RepoTagPath name b remote).1, dst ++ b, none) := by
  simp only [DockerTagClient.Upload, DockerTagClient.Download, hp]
  simp [mapTagClient, mapClient]

/-- Witness of C8: three bytes stored under "myrepo:v1" in an empty remote store. -/
theorem upload_then_download_witness :
    (mapTagClient ⟨"/tags"⟩).path (nameparse.RepoTagPath (fun _ => false)) "myrepo:v1"
        = .ok "/tags/myrepo/v1" ∧
    (((mapTagClient ⟨"/tags"⟩).Upload (nameparse.RepoTagPath (fun _ => false)) "myrepo:v1"
        [7, 8, 9] (fun _ => none)).2.2 = none ∧
      (mapTagClient ⟨"/tags"⟩).Download (nameparse.RepoTagPath (fun _ => false)) "myrepo:v1" []
          ((mapTagClient ⟨"/tags"⟩).Upload (nameparse.RepoTagPath (fun _ => false)) "myrepo:v1"
            [7, 8, 9] (fun _ => none)).1
        = (((mapTagClient ⟨"/tags"⟩).Upload (nameparse.RepoTagPath (fun _ => false)) "myrepo:v1"
            [7, 8, 9] (fun _ => none)).1, [] ++ [7, 8, 9], none)) :=
  ⟨rfl,
    upload_then_download (nameparse.RepoTagPath (fun _ => false)) ⟨"/tags"⟩ "myrepo:v1"
      "/tags/myrepo/v1" [7, 8, 9] [] (fun _ => none) rfl⟩

/-- C9: with name resolution as the spec describes it, for every root directory `path`
returns an error for every identifier whose repository or tag has a `..` segment (such
as "../../etc:passwd"), for every identifier without a colon, for every identifier with
an empty repository and for every identifier with an empty tag; and a path that `path`
returns is the root directory followed by a slash and a relative path with no `..`
segment, so it lies under the root. -/
theorem path_rejects_and_confines (disallowed : Char → Bool) (c : DockerTagClient σ)
    (repo tag noColon noRepo noTag : List Char) (name p : String)
    (htrav : ['.', '.'] ∈ nameparse.segments repo ∨ ['.', '.'] ∈ nameparse.segments tag)
    (hcolon : ':' ∉ noColon)
    (hok : c.path (nameparse.RepoTagPath disallowed) name = .ok p) :
    (∃ e, c.path (nameparse.RepoTagPath disallowed) (String.mk (repo ++ ':' :: tag))
        = .error e) ∧
      (∃ e, c.path (nameparse.RepoTagPath disallowed) (String.mk noColon) = .error e) ∧
      (∃ e, c.path (nameparse.RepoTagPath disallowed) (String.mk (':' :: noRepo)) = .error e) ∧
      (∃ e, c.path (nameparse.RepoTagPath disallowed) (String.mk (noTag ++ [':'])) = .error e) ∧
      ∃ rel : String, p = c.config.RootDirectory ++ "/" ++ rel ∧
        ['.', '.'] ∉ nameparse.segments rel.toList :=
  ⟨nameparse.RepoTagPath_traversal disallowed _ repo tag htrav,
    nameparse.RepoTagPath_no_separator disallowed _ noColon hcolon,
    nameparse.RepoTagPath_empty_repo disallowed _ noRepo,
    nameparse.RepoTagPath_empty_tag disallowed _ noTag,
    nameparse.RepoTagPath_under_root disallowed _ name p hok⟩

/-- Witness of C9: "../../etc:passwd", "myrepo", ":v1" and "myrepo:" are rejected, and
"myrepo:v1" resolves under "/tags". -/
theorem path_rejects_and_confines_witness :
    ((['.', '.'] ∈ nameparse.segments "../../etc".toList
        ∨ ['.', '.'] ∈ nameparse.segments "passwd".toList) ∧
      ':' ∉ "myrepo".toList ∧
      exampleTagClient.path (nameparse.RepoTagPath (fun _ => false)) "myrepo:v1"
        = .ok "/tags/myrepo/v1") ∧
    ((∃ e, exampleTagClient.path (nameparse.RepoTagPath (fun _ => false))
        (String.mk ("../../etc".toList ++ ':' :: "passwd".toList)) = .error e) ∧
      (∃ e, exampleTagClient.path (nameparse.RepoTagPath (fun _ => false))
        (String.mk "myrepo".toList) = .error e) ∧
      (∃ e, exampleTagClient.path (nameparse.RepoTagPath (fun _ => false))
        (String.mk (':' :: "v1".toList)) = .error e) ∧
      (∃ e, exampleTagClient.path (nameparse.RepoTagPath (fun _ => false))
        (String.mk ("myrepo".toList ++ [':'])) = .error e) ∧
      ∃ rel : String, "/tags/myrepo/v1" = exampleTagClient.config.RootDirectory ++ "/" ++ rel ∧
        ['.', '.'] ∉ nameparse.segments rel.toList) :=
  ⟨⟨by decide, by decide, rfl⟩,
    path_rejects_and_confines (fun _ => false) exampleTagClient "../../etc".toList
      "passwd".toList "myrepo".toList "v1".toList "myrepo".toList "myrepo:v1"
      "/tags/myrepo/v1" (by decide) (by decide) rfl⟩

end hdfsbackend

end Kraken
